import Mathlib

/-!
Verification of the `prm_sim` LD-PRM planner.

The development shallowly embeds the code of `src/globalmap.cpp` and
`src/simulator.cpp`.  The `Graph` component (`graph.h/cpp`), the `LocalMap`
component (`localmap.h/cpp`) and `PrmPlanner::optimisePath` are not part of the
source tree (only their declarations and callers are); those parts are
modelled from the specification and are marked `Modelled from the spec:` in
their doc comments.

Conventions of the embedding:
* World coordinates (`double` in C++) are idealised as exact rationals `ℚ`;
  floating-point rounding is not modelled.
* `std::map` tables are embedded as association lists sorted by key
  (`std::map` iterates in ascending key order).
* Mutation is embedded as explicit state passing: functions that mutate the
  `GlobalMap` object return the new state.
* The random sampler of `GlobalMap::build` (`std::uniform_real_distribution`
  seeded from the wall clock) is embedded as an arbitrary input stream
  `ℕ → ℚ × ℚ` of raw sample coordinates; `build` applies the source's
  rounding to the stream values itself.
-/

namespace PrmSim

/-- `TGlobalOrd` (types.h): a point in the robot's global frame, metres. -/
structure TGlobalOrd where
  x : ℚ
  y : ℚ
deriving DecidableEq

/-- `cv::Point`: an integer pixel coordinate, `x` = column, `y` = row. -/
structure Pt where
  x : ℤ
  y : ℤ
deriving DecidableEq

/-- `std::round`, rounding halfway cases away from zero. -/
def roundQ (q : ℚ) : ℤ :=
  if 0 ≤ q then Rat.floor (q + 1/2) else -Rat.floor (1/2 - q)

/-- Squared Euclidean distance between two ordinates (exact). -/
def dist2 (p1 p2 : TGlobalOrd) : ℚ :=
  (p2.x - p1.x) ^ 2 + (p2.y - p1.y) ^ 2

/-- Integer square root by linear search (structural, so that concrete
evaluations reduce inside the kernel): the largest `k ≤ n` with `k * k ≤ n`. -/
def natSqrt (n : ℕ) : ℕ :=
  (((List.range (n + 1)).filter fun k => k * k ≤ n).getLast?).getD 0

/-- Exact square root of a nonnegative rational that is the square of a
rational; returns `0` on inputs with an irrational root (no such input is
produced in this development, all concrete distances used have rational
roots). -/
def ratSqrt (q : ℚ) : ℚ :=
  if 0 ≤ q.num ∧ natSqrt q.num.toNat * natSqrt q.num.toNat = q.num.toNat
      ∧ natSqrt q.den * natSqrt q.den = q.den then
    (natSqrt q.num.toNat : ℚ) / (natSqrt q.den : ℚ)
  else 0

/-- `distance` (globalmap.cpp:74-79): Euclidean distance
`sqrt(|dx|^2 + |dy|^2)`, idealised over `ℚ` via `ratSqrt`. -/
def distance (p1 p2 : TGlobalOrd) : ℚ :=
  ratSqrt (dist2 p1 p2)

/-! ## Grid / LocalMap

Modelled from the spec: `localmap.h/cpp` is not in the source tree.  Spec §4.1
describes the Grid contract (`world_to_cell`, `is_free`, `expand_cspace`,
`can_connect`). -/

/-- Modelled from the spec: a greyscale raster (`cv::Mat`).  `data c r` is the
occupancy byte of column `c`, row `r`; bytes near 255 are free. -/
structure Grid where
  width : ℤ
  height : ℤ
  data : ℤ → ℤ → ℕ

/-- Modelled from the spec: `is_free(cell)` — inside bounds and occupancy byte
strictly greater than 127 (spec §4.1, FreeThreshold). -/
def isFree (m : Grid) (c r : ℤ) : Bool :=
  decide (0 ≤ c) && decide (c < m.width) && decide (0 ≤ r) && decide (r < m.height)
    && decide (127 < m.data c r)

/-- Modelled from the spec: `LocalMap::isAccessible` — the cell is in known
free space. -/
def isAccessible (m : Grid) (p : Pt) : Bool :=
  isFree m p.x p.y

/-- Modelled from the spec: true iff some in-bounds non-free cell lies within
Chebyshev radius `k` of `(c, r)` (square structuring element). -/
def nearOccupied (m : Grid) (k : ℕ) (c r : ℤ) : Bool :=
  (List.range (2 * k + 1)).any fun i =>
    (List.range (2 * k + 1)).any fun j =>
      let c' := c + (i : ℤ) - (k : ℤ)
      let r' := r + (j : ℤ) - (k : ℤ)
      decide (0 ≤ c') && decide (c' < m.width) && decide (0 ≤ r') && decide (r' < m.height)
        && decide (m.data c' r' ≤ 127)

/-- Modelled from the spec: `expand_cspace(robot_diameter_m)` — dilate the
non-free regions by `ceil(diameter / (2 * resolution))` cells with a square
structuring element (spec §4.1). -/
def expandConfigSpace (m : Grid) (diameter res : ℚ) : Grid :=
  let k : ℕ := (Rat.ceil (diameter / (2 * res))).toNat
  { m with data := fun c r => if nearOccupied m k c r then 0 else m.data c r }

/-- Modelled from the spec: `world_to_cell(ref, p)` — spec §4.1:
`col = round((p.x − ref.x)/res + width/2)`,
`row = round(height/2 − (p.y − ref.y)/res)` with `width = height = mapSize/res`
cells. -/
def worldToCell (ref : TGlobalOrd) (res mapSize : ℚ) (p : TGlobalOrd) : Pt :=
  ⟨roundQ ((p.x - ref.x) / res + (mapSize / res) / 2),
   roundQ ((mapSize / res) / 2 - (p.y - ref.y) / res)⟩

/-- Modelled from the spec: one Bresenham line step walker.  Arguments
`(x1, y1)` endpoint, `(sx, sy)` step directions, `dx = |x1-x0|`,
`dy = -|y1-y0|`; checks that every visited cell is free.  Fuel bounds the
walk (it is chosen large enough that it never runs out on the segment). -/
def canConnectAux (m : Grid) (x1 y1 sx sy dx dy : ℤ) :
    ℕ → ℤ → ℤ → ℤ → Bool
  | 0, x, y, _ => isFree m x y
  | fuel + 1, x, y, err =>
    if !isFree m x y then false
    else if x = x1 && y = y1 then true
    else
      let e2 := 2 * err
      let x' := if dy ≤ e2 then x + sx else x
      let err1 := if dy ≤ e2 then err + dy else err
      let y' := if e2 ≤ dx then y + sy else y
      let err2 := if e2 ≤ dx then err1 + dx else err1
      canConnectAux m x1 y1 sx sy dx dy fuel x' y' err2

/-- Modelled from the spec: `can_connect(a, b)` — rasterise the segment with
Bresenham and return true iff every visited cell is free (spec §4.1). -/
def canConnect (m : Grid) (a b : Pt) : Bool :=
  let dx := |b.x - a.x|
  let dy := -|b.y - a.y|
  let sx : ℤ := if a.x < b.x then 1 else -1
  let sy : ℤ := if a.y < b.y then 1 else -1
  canConnectAux m b.x b.y sx sy dx dy (dx - dy).toNat a.x a.y (dx + dy)

/-! ## Graph

Modelled from the spec: `graph.h/cpp` is not in the source tree.  Spec §4.2
describes the operations; §2 table C2: "Undirected weighted graph keyed by
opaque vertex ids; edge insertion with degree cap; Dijkstra shortest path".
The adjacency mapping (`std::map<vertex, edges>`) is embedded as an
association list sorted by key. -/

/-- Sorted-insert of a key/value pair into an association list ordered by key
(`std::map::insert`-like placement; never called on a present key in this
development except where noted). -/
def insSorted {α : Type} (k : ℕ) (v : α) : List (ℕ × α) → List (ℕ × α)
  | [] => [(k, v)]
  | kv :: rest =>
    if k ≤ kv.1 then (k, v) :: kv :: rest else kv :: insSorted k v rest

/-- Replace the value at key `k`, or sorted-insert it if absent. -/
def alSet {α : Type} (k : ℕ) (v : α) : List (ℕ × α) → List (ℕ × α)
  | [] => [(k, v)]
  | kv :: rest =>
    if kv.1 = k then (k, v) :: rest
    else if k < kv.1 then (k, v) :: kv :: rest
    else kv :: alSet k v rest

/-- Modelled from the spec: the Graph component (spec §4.2).  `density` is
MaxDegree, `maxDist` is MaxEdgeLen; `adj` maps each vertex to its
`(neighbour, weight)` list. -/
structure Graph where
  density : ℕ
  maxDist : ℚ
  adj : List (ℕ × List (ℕ × ℚ))
deriving DecidableEq

/-- Modelled from the spec: `add_vertex(v)` — insert with empty neighbour
set; idempotent if already present. -/
def addVertex (g : Graph) (v : ℕ) : Graph :=
  if (g.adj.lookup v).isSome then g else { g with adj := insSorted v [] g.adj }

/-- Neighbour list of a vertex (empty when the vertex is absent). -/
def neighboursOf (g : Graph) (v : ℕ) : List (ℕ × ℚ) :=
  (g.adj.lookup v).getD []

/-- Degree of a vertex. -/
def degreeOf (g : Graph) (v : ℕ) : ℕ :=
  (neighboursOf g v).length

/-- Whether `v` is already a neighbour of `u`. -/
def hasEdge (g : Graph) (u v : ℕ) : Bool :=
  (neighboursOf g u).any fun nb => nb.1 == v

/-- Modelled from the spec: `add_edge(u, v, w)` — refuses if `u = v`,
`w ≤ 0`, `w > MaxEdgeLen`, either endpoint is at capacity, or the edge
already exists; otherwise inserts symmetrically (spec §4.2). -/
def addEdge (g : Graph) (u v : ℕ) (w : ℚ) : Graph :=
  if u = v || decide (w ≤ 0) || decide (g.maxDist < w)
      || decide (g.density ≤ degreeOf g u) || decide (g.density ≤ degreeOf g v)
      || hasEdge g u v then g
  else
    { g with adj := alSet v (insSorted u w (neighboursOf g v))
                      (alSet u (insSorted v w (neighboursOf g u)) g.adj) }

/-- Modelled from the spec: pick the unvisited vertex with the least
tentative distance, ties broken by the smaller VertexId (spec §4.2). -/
def pickMin (dist : List (ℕ × ℚ)) (visited : List ℕ) : Option ℕ :=
  (dist.foldl (fun best vd =>
    if visited.contains vd.1 then best
    else match best with
      | none => some vd
      | some bd => if vd.2 < bd.2 || (vd.2 == bd.2 && vd.1 < bd.1) then some vd else best)
    none).map Prod.fst

/-- Modelled from the spec: relax all edges out of `u` (tentative distance
`du`), updating the tentative-distance and predecessor tables. -/
def relaxNbrs (u : ℕ) (du : ℚ) (nbrs : List (ℕ × ℚ)) :
    List (ℕ × ℚ) × List (ℕ × ℕ) → List (ℕ × ℚ) × List (ℕ × ℕ) :=
  fun dp =>
    nbrs.foldl (fun acc nb =>
      match acc.1.lookup nb.1 with
      | none => (alSet nb.1 (du + nb.2) acc.1, alSet nb.1 u acc.2)
      | some dv =>
        if du + nb.2 < dv then (alSet nb.1 (du + nb.2) acc.1, alSet nb.1 u acc.2)
        else acc) dp

/-- Modelled from the spec: the main Dijkstra loop; one settled vertex per
fuel unit. -/
def dijkstraLoop (g : Graph) :
    ℕ → List ℕ → List (ℕ × ℚ) × List (ℕ × ℕ) → List (ℕ × ℚ) × List (ℕ × ℕ)
  | 0, _, dp => dp
  | fuel + 1, visited, dp =>
    match pickMin dp.1 visited with
    | none => dp
    | some u =>
      let du := (dp.1.lookup u).getD 0
      dijkstraLoop g fuel (u :: visited) (relaxNbrs u du (neighboursOf g u) dp)

/-- Modelled from the spec: walk the predecessor table back from `dst` to
`src` and emit the path in forward order; empty when the chain is broken
(unreachable). -/
def pathTo (prev : List (ℕ × ℕ)) (src : ℕ) : ℕ → ℕ → List ℕ
  | 0, _ => []
  | fuel + 1, dst =>
    if dst = src then [src]
    else match prev.lookup dst with
      | none => []
      | some p =>
        match pathTo prev src fuel p with
        | [] => []
        | l => l ++ [dst]

/-- Modelled from the spec: `shortest_path(src, dst)` — Dijkstra; returns the
vertex path, or `[]` when `dst` is unreachable (spec §4.2). -/
def shortestPath (g : Graph) (src dst : ℕ) : List ℕ :=
  let dp := dijkstraLoop g g.adj.length [] ([(src, 0)], [])
  pathTo dp.2 src (g.adj.length + 1) dst

/-! ## GlobalMap (globalmap.cpp)

The planner object.  `vertexLUT_` (`std::map<vertex, TGlobalOrd>`) is the
vertex → ordinate table, embedded as an association list sorted by key. -/

/-- `GlobalMap` state (globalmap.h fields used by globalmap.cpp). -/
structure GlobalMap where
  graph : Graph
  vertexLUT : List (ℕ × TGlobalOrd)
  nextVertexId : ℕ
  reference : TGlobalOrd
  mapSize : ℚ
  mapRes : ℚ
  robotDiameter : ℚ
deriving DecidableEq

/-- `GlobalMap::GlobalMap(mapSize, mapRes, robotDiameter)` (globalmap.cpp:18-26)
with `MaxGraphDensity = 5`, `MaxDistance = 2.5` (globalmap.cpp:15-16). -/
def GlobalMap.init (mapSize mapRes robotDiameter : ℚ) : GlobalMap :=
  { graph := { density := 5, maxDist := 5/2, adj := [] }
    vertexLUT := []
    nextVertexId := 0
    reference := ⟨0, 0⟩
    mapSize := mapSize
    mapRes := mapRes
    robotDiameter := robotDiameter }

/-- `lmap_.convertToPoint(reference_, ord)` as used throughout globalmap.cpp. -/
def GlobalMap.toPoint (st : GlobalMap) (p : TGlobalOrd) : Pt :=
  worldToCell st.reference st.mapRes st.mapSize p

/-- `std::map::operator[]` on `vertexLUT_`: the stored ordinate if the key is
present, otherwise value-initialises `{0, 0}` at the key and returns it. -/
def lutGetOrInsert (lut : List (ℕ × TGlobalOrd)) (v : ℕ) :
    TGlobalOrd × List (ℕ × TGlobalOrd) :=
  match lut.lookup v with
  | some o => (o, lut)
  | none => (⟨0, 0⟩, insSorted v ⟨0, 0⟩ lut)

/-- `GlobalMap::existsAsVertex(ord)` (globalmap.cpp:195-203): some entry of
`vertexLUT_` stores an ordinate with equal `x` and `y`. -/
def GlobalMap.existsAsVertex (st : GlobalMap) (ord : TGlobalOrd) : Bool :=
  st.vertexLUT.any fun kv => kv.2.x == ord.x && kv.2.y == ord.y

/-- `GlobalMap::lookup(ord, v)` (globalmap.cpp:224-233): the first vertex (in
ascending id order) whose stored ordinate equals `ord`. -/
def GlobalMap.lookupOrd (st : GlobalMap) (ord : TGlobalOrd) : Option ℕ :=
  (st.vertexLUT.find? fun kv => kv.2.x == ord.x && kv.2.y == ord.y).map Prod.fst

/-- `GlobalMap::findOrAdd(ordinate)` (globalmap.cpp:205-216): return the
existing vertex for the ordinate, or allocate `nextVertexId_` (post-increment,
globalmap.cpp:218-222), add it to the graph and the table. -/
def GlobalMap.findOrAdd (st : GlobalMap) (ordinate : TGlobalOrd) : ℕ × GlobalMap :=
  if st.existsAsVertex ordinate then
    ((st.lookupOrd ordinate).getD 0, st)
  else
    let v := st.nextVertexId
    (v, { st with
            graph := addVertex st.graph v
            vertexLUT := insSorted v ordinate st.vertexLUT
            nextVertexId := v + 1 })

/-- `GlobalMap::convertPath(std::vector<vertex>)` (globalmap.cpp:37-45):
translate a vertex path to ordinates via `vertexLUT_[v]`; the `operator[]`
default-insertion side effect is threaded through. -/
def convertPathS (lut : List (ℕ × TGlobalOrd)) :
    List ℕ → List TGlobalOrd × List (ℕ × TGlobalOrd)
  | [] => ([], lut)
  | v :: vs =>
    let ol := lutGetOrInsert lut v
    let rest := convertPathS ol.2 vs
    (ol.1 :: rest.1, rest.2)

/-- One iteration of the loop of `GlobalMap::connectToExistingNodes`
(globalmap.cpp:96-106): skip the node itself, otherwise add an edge when the
straight segment is collision-free (admission rules in `addEdge`). -/
def connectStep (m : Grid) (node : ℕ) (ordN : TGlobalOrd) (pNode : Pt)
    (acc : GlobalMap) (kv : ℕ × TGlobalOrd) : GlobalMap :=
  if kv.1 = node then acc
  else if canConnect m pNode (acc.toPoint kv.2) then
    { acc with graph := addEdge acc.graph node kv.1 (distance ordN kv.2) }
  else acc

/-- `GlobalMap::connectToExistingNodes(m, node)` (globalmap.cpp:91-107): try
to connect `node` to every other vertex of the table. -/
def GlobalMap.connectToExistingNodes (st : GlobalMap) (m : Grid) (node : ℕ) : GlobalMap :=
  let ol := lutGetOrInsert st.vertexLUT node
  let pNode := st.toPoint ol.1
  let st1 := { st with vertexLUT := ol.2 }
  ol.2.foldl (connectStep m node ol.1 pNode) st1

/-- The coordinate rounding of the sampler (globalmap.cpp:169-171):
`round(v * 10.0) / 10.0` on each coordinate. -/
def roundOrd (raw : ℚ × ℚ) : TGlobalOrd :=
  ⟨(roundQ (raw.1 * 10) : ℚ) / 10, (roundQ (raw.2 * 10) : ℚ) / 10⟩

/-- The sampling loop of `GlobalMap::build` (globalmap.cpp:148-190).
`cnt` is `safetyCnt`; the iteration with `safetyCnt = 1000` breaks out before
drawing a sample.  The fuel argument only serves structural recursion: `build`
supplies `fuel = 1000`, which the break condition makes unreachable.  The
sample drawn in the iteration with `safetyCnt = c + 1` is `samples c`. -/
def samplingLoop (m : Grid) (vStart vGoal : ℕ) (samples : ℕ → ℚ × ℚ) :
    ℕ → ℕ → GlobalMap → List TGlobalOrd × GlobalMap
  | 0, _, st => ([], st)
  | fuel + 1, cnt, st =>
    let cnt' := cnt + 1
    if cnt' = 1000 then ([], st)
    else
      let randomOrd := roundOrd (samples cnt)
      let pRand := st.toPoint randomOrd
      if !isAccessible m pRand then
        samplingLoop m vStart vGoal samples fuel cnt' st
      else
        let vr := st.findOrAdd randomOrd
        let st2 := vr.2.connectToExistingNodes m vr.1
        let vPath := shortestPath st2.graph vStart vGoal
        if vPath.isEmpty then
          samplingLoop m vStart vGoal samples fuel cnt' st2
        else
          let conv := convertPathS st2.vertexLUT vPath
          (conv.1, { st2 with vertexLUT := conv.2 })

/-- `GlobalMap::build` after the start/goal setup block (globalmap.cpp:134-192):
query, re-attach and re-query, then sample. -/
def buildRest (m : Grid) (vStart vGoal : ℕ) (samples : ℕ → ℚ × ℚ)
    (st : GlobalMap) : List TGlobalOrd × GlobalMap :=
  let vPath := shortestPath st.graph vStart vGoal
  if !vPath.isEmpty then
    let conv := convertPathS st.vertexLUT vPath
    (conv.1, { st with vertexLUT := conv.2 })
  else
    let st1 := st.connectToExistingNodes m vStart
    let st2 := st1.connectToExistingNodes m vGoal
    let vPath2 := shortestPath st2.graph vStart vGoal
    if !vPath2.isEmpty then
      let conv := convertPathS st2.vertexLUT vPath2
      (conv.1, { st2 with vertexLUT := conv.2 })
    else
      samplingLoop m vStart vGoal samples 1000 0 st2

/-- `GlobalMap::build(m, start, goal)` (globalmap.cpp:110-193).

`vStart0`/`vGoal0` embed the *indeterminate* initial values of the local
variables `vertex vStart, vGoal;` (globalmap.cpp:112): the C++ leaves them
uninitialised, and when both `start` and `goal` already exist as vertices the
setup block (globalmap.cpp:120-132) is skipped, so the shortest-path queries
run on whatever values the locals happen to hold. -/
def GlobalMap.build (st : GlobalMap) (m : Grid) (start goal : TGlobalOrd)
    (vStart0 vGoal0 : ℕ) (samples : ℕ → ℚ × ℚ) : List TGlobalOrd × GlobalMap :=
  let m1 := expandConfigSpace m st.robotDiameter st.mapRes
  if !(st.existsAsVertex start) || !(st.existsAsVertex goal) then
    let pStart := st.toPoint start
    let pGoal := st.toPoint goal
    if !isAccessible m1 pStart || !isAccessible m1 pGoal then ([], st)
    else
      let vs := st.findOrAdd start
      let vg := vs.2.findOrAdd goal
      buildRest m1 vs.1 vg.1 samples vg.2
  else
    buildRest m1 vStart0 vGoal0 samples st

/-- `GlobalMap::setReference(reference)` (globalmap.cpp:235-238): copy `x`
and `y` of the argument into `reference_`. -/
def GlobalMap.setReference (st : GlobalMap) (reference : TGlobalOrd) : GlobalMap :=
  { st with reference := ⟨reference.x, reference.y⟩ }

/-- Modelled from the spec: `PrmPlanner::optimisePath` — only declared in the
source tree (prmplanner.h:129-141); spec §4.3.4: starting at `p[0]`, repeatedly
jump to the largest index that is directly line-of-sight connectable from the
current point, defaulting to the next index. -/
def bestJump (st : GlobalMap) (m : Grid) (p : List TGlobalOrd) (i : ℕ) : ℕ :=
  ((List.range p.length).filter fun j =>
      decide (i < j) && canConnect m (st.toPoint (p.getD i ⟨0, 0⟩)) (st.toPoint (p.getD j ⟨0, 0⟩)))
    |>.foldl max (i + 1)

/-- Modelled from the spec: the shortcutting walk of `optimise_path`
(spec §4.3.4); fuel is the path length, enough since the index strictly
increases. -/
def optimiseAux (st : GlobalMap) (m : Grid) (p : List TGlobalOrd) :
    ℕ → ℕ → List TGlobalOrd
  | 0, _ => []
  | fuel + 1, i =>
    if p.length ≤ i + 1 then []
    else
      let j := bestJump st m p i
      p.getD j ⟨0, 0⟩ :: optimiseAux st m p fuel j

/-- Modelled from the spec: `optimise_path` (spec §4.3.4). -/
def optimisePath (st : GlobalMap) (m : Grid) (p : List TGlobalOrd) : List TGlobalOrd :=
  match p with
  | [] => []
  | a :: _ => a :: optimiseAux st m p p.length 0

/-! ## Simulator (simulator.cpp)

The planner loop body (`Simulator::prmThread`, simulator.cpp:77-152).  The
world snapshot (grid + robot pose) is consumed once per cycle before any
build; the up-to-3 build attempts of one cycle are abstracted by the oracle
`bf : ℕ → List TGlobalOrd` giving the result of the i-th `gmap_.build` call
(the planner state threads through the attempts, so each call may answer
differently). -/

/-- `geometry_msgs::Pose` position, as consumed by the planner
(`position.x/y/z`; orientation is unused). -/
structure Pose where
  x : ℚ
  y : ℚ
  z : ℚ
deriving DecidableEq

/-- A message published by one planning cycle: the `/prm` overlay image
(semantic content: the PRM plus the drawn path) or the `/path` PoseArray. -/
inductive PubMsg where
  | overlay (path : List TGlobalOrd)
  | path (poses : List Pose)
deriving DecidableEq

/-- The waypoint poses built in simulator.cpp:139-147: one pose per path
ordinate in order, `x`/`y` from the ordinate and `z` from the robot pose. -/
def waypointPoses (path : List TGlobalOrd) (z : ℚ) : List Pose :=
  path.map fun w => ⟨w.x, w.y, z⟩

/-- The retry loop of `Simulator::prmThread` (simulator.cpp:120-129): `cnt`
holds the attempt count (initialised to 1 after the first build); while the
path is empty, increment `cnt`, rebuild, and break once `cnt > 2`.  Fuel only
serves structural recursion; `retryBuild` supplies enough. -/
def retryLoop (bf : ℕ → List TGlobalOrd) :
    ℕ → List TGlobalOrd → ℕ → ℕ × List TGlobalOrd
  | 0, path, cnt => (cnt, path)
  | fuel + 1, path, cnt =>
    if path.isEmpty then
      let cnt' := cnt + 1
      let path' := bf (cnt' - 1)
      if 2 < cnt' then (cnt', path') else retryLoop bf fuel path' cnt'
    else (cnt, path)

/-- The build-attempt phase of one planning cycle (simulator.cpp:118-129):
first call, then the retry loop; returns (attempt count, final path). -/
def retryBuild (bf : ℕ → List TGlobalOrd) : ℕ × List TGlobalOrd :=
  retryLoop bf 3 (bf 0) 1

/-- One planning cycle of `Simulator::prmThread` from the consumed world
snapshot onward (simulator.cpp:106-151): an empty grid aborts the cycle
before planning (`continue`, simulator.cpp:106-109); otherwise the retry
phase runs, the overlay is always published, and the waypoint PoseArray only
when the path is non-empty. -/
def planningCycle (ogMapEmpty : Bool) (bf : ℕ → List TGlobalOrd)
    (robotPos : Pose) : List PubMsg :=
  if ogMapEmpty then []
  else
    let pr := retryBuild bf
    PubMsg.overlay pr.2 ::
      (if 0 < pr.2.length then [PubMsg.path (waypointPoses pr.2 robotPos.z)] else [])

/-- Whether a published message is the overlay image. -/
def isOverlay : PubMsg → Bool
  | .overlay _ => true
  | .path _ => false

/-- Whether a published message is the waypoint PoseArray. -/
def isPathMsg : PubMsg → Bool
  | .overlay _ => false
  | .path _ => true

/-! ## Auxiliary notions used by the claims -/

/-- Run `findOrAdd` on a sequence of ordinates, collecting the returned
vertex ids and the final state. -/
def runFindOrAdds (st : GlobalMap) : List TGlobalOrd → List ℕ × GlobalMap
  | [] => ([], st)
  | p :: ps =>
    let vs := st.findOrAdd p
    let rest := runFindOrAdds vs.2 ps
    (vs.1 :: rest.1, rest.2)

/-- Well-formedness of the vertex table: keys strictly ascending (the
`std::map` shape and id-issue order), every key below `nextVertexId_`, and no
two entries sharing an ordinate (spec invariant R1). -/
def RoadmapWF (st : GlobalMap) : Prop :=
  List.Pairwise (fun a b => a.1 < b.1) st.vertexLUT ∧
  (∀ kv ∈ st.vertexLUT, kv.1 < st.nextVertexId) ∧
  (∀ a ∈ st.vertexLUT, ∀ b ∈ st.vertexLUT, a.2 = b.2 → a = b)

instance (st : GlobalMap) : Decidable (RoadmapWF st) := by
  unfold RoadmapWF; infer_instance

/-- An ordinate lying on the 0.1 m rounding grid of the sampler. -/
def onGrid (p : TGlobalOrd) : Prop :=
  (∃ a : ℤ, p.x = (a : ℚ) / 10) ∧ (∃ b : ℤ, p.y = (b : ℚ) / 10)

/-- A non-empty build result that is exactly the ordinate translation of a
vertex path from `start` to `goal`: first ordinate `start`, last ordinate
`goal`, and the list is `convertPath` of an equally long vertex path — no
optimisation pass is applied to it. -/
def UntranslatedResult (start goal : TGlobalOrd) (res : List TGlobalOrd) : Prop :=
  res.head? = some start ∧ res.getLast? = some goal ∧
  ∃ vPath lut, res = (convertPathS lut vPath).1 ∧ vPath.length = res.length

/-- The invariant carried through the sampling loop: every table key is below
`nextVertexId_`, and the start/goal vertices resolve to the start/goal
ordinates. -/
def LoopInv (vStart vGoal : ℕ) (start goal : TGlobalOrd) (st : GlobalMap) : Prop :=
  (∀ kv ∈ st.vertexLUT, kv.1 < st.nextVertexId) ∧
  st.vertexLUT.lookup vStart = some start ∧
  st.vertexLUT.lookup vGoal = some goal

/-! ## Concrete fixtures

Small concrete worlds used to evaluate the embedded code.  Grid bytes: 255 =
free, 0 = occupied.  Parameters are the simulator defaults
(`map_size = 20`, `resolution = 0.1`, `robot_diameter = 0.2`,
simulator.cpp:46-48), giving 200×200 cells and world-to-cell
`col = 10·x + 100`, `row = 100 − 10·y`. -/

/-- A 200×200 grid of known free space. -/
def gridFree : Grid := ⟨200, 200, fun _ _ => 255⟩

/-- A 200×200 grid that is entirely occupied. -/
def gridBlocked : Grid := ⟨200, 200, fun _ _ => 0⟩

/-- A 200×200 grid with a full-height occupied wall at column 110
(world x = 1). -/
def gridWall : Grid := ⟨200, 200, fun c _ => if c = 110 then 0 else 255⟩

/-- A freshly constructed planner with the simulator's default parameters. -/
def st0 : GlobalMap := GlobalMap.init 20 (1/10) (1/5)

/-- A sample stream that is never consulted in the runs it is passed to. -/
def samsNone : ℕ → ℚ × ℚ := fun _ => (0, 0)

/-- The planner state after an earlier build added vertices for `(0,0)` and
`(2,0)` (ids 0 and 1) and the connecting edge of weight 2. -/
def stBoth : GlobalMap :=
  { st0 with
      graph := { density := 5, maxDist := 5/2, adj := [(0, [(1, 2)]), (1, [(0, 2)])] }
      vertexLUT := [(0, ⟨0, 0⟩), (1, ⟨2, 0⟩)]
      nextVertexId := 2 }

/-- A planner state holding one prior vertex at `(2,0)` (id 0) and no edges. -/
def stMid : GlobalMap :=
  { st0 with
      graph := { density := 5, maxDist := 5/2, adj := [(0, [])] }
      vertexLUT := [(0, ⟨2, 0⟩)]
      nextVertexId := 1 }

/-- Sample stream for the dispersion run: `(2,0)`, then `(2.1,0)`, then
`(4,0)`. -/
def samsDisp : ℕ → ℚ × ℚ := fun n =>
  if n = 0 then (2, 0) else if n = 1 then (21/10, 0) else (4, 0)

/-- A stream agreeing with `samsNone` on indices below 999 and differing from
index 999 on. -/
def samsTail : ℕ → ℚ × ℚ := fun n => if n < 999 then (0, 0) else (7, 7)

/-- A build oracle whose first attempt already yields a one-point path. -/
def bfOne : ℕ → List TGlobalOrd := fun _ => [⟨1, 2⟩]

/-- A concrete robot pose with non-zero `z`. -/
def rpZ : Pose := ⟨0, 0, 5⟩

/-! ## Association-list lemmas -/

lemma lookup_cons_self {α : Type} (k : ℕ) (v : α) (l : List (ℕ × α)) :
    ((k, v) :: l).lookup k = some v := by
  simp [List.lookup]

lemma lookup_cons_ne {α : Type} {k k' : ℕ} (h : k' ≠ k) (v : α) (l : List (ℕ × α)) :
    ((k', v) :: l).lookup k = l.lookup k := by
  have hb : (k == k') = false := beq_eq_false_iff_ne.mpr fun e => h e.symm
  simp [List.lookup, hb]

lemma lookup_isSome_of_mem {α : Type} {k : ℕ} {v : α} {l : List (ℕ × α)}
    (h : (k, v) ∈ l) : (l.lookup k).isSome := by
  induction l with
  | nil => simp at h
  | cons a t ih =>
    obtain ⟨a1, a2⟩ := a
    rcases List.mem_cons.mp h with h1 | h1
    · cases h1; simp [lookup_cons_self]
    · by_cases hk : a1 = k
      · subst hk; simp [lookup_cons_self]
      · rw [lookup_cons_ne hk]; exact ih h1

lemma mem_of_lookup_some {α : Type} {k : ℕ} {v : α} {l : List (ℕ × α)}
    (h : l.lookup k = some v) : (k, v) ∈ l := by
  induction l with
  | nil => simp [List.lookup] at h
  | cons a t ih =>
    obtain ⟨a1, a2⟩ := a
    by_cases hk : a1 = k
    · subst hk
      rw [lookup_cons_self] at h
      cases h
      exact List.mem_cons_self _ _
    · rw [lookup_cons_ne hk] at h
      exact List.mem_cons_of_mem _ (ih h)

lemma lookup_of_mem_pairwise {α : Type} {k : ℕ} {v : α} {l : List (ℕ × α)}
    (hp : List.Pairwise (fun a b => a.1 < b.1) l) (h : (k, v) ∈ l) :
    l.lookup k = some v := by
  induction l with
  | nil => simp at h
  | cons a t ih =>
    obtain ⟨a1, a2⟩ := a
    rcases List.mem_cons.mp h with h1 | h1
    · cases h1; exact lookup_cons_self _ _ _
    · have hlt : a1 < k := (List.pairwise_cons.mp hp).1 (k, v) h1
      rw [lookup_cons_ne (Nat.ne_of_lt hlt)]
      exact ih (List.pairwise_cons.mp hp).2 h1

lemma mem_insSorted {α : Type} (k : ℕ) (v : α) (l : List (ℕ × α)) (kv : ℕ × α) :
    kv ∈ insSorted k v l ↔ kv = (k, v) ∨ kv ∈ l := by
  induction l with
  | nil => simp [insSorted]
  | cons a t ih =>
    unfold insSorted
    by_cases hle : k ≤ a.1
    · simp [hle]
    · simp only [if_neg hle, List.mem_cons, ih]
      tauto

lemma lookup_insSorted_self {α : Type} (k : ℕ) (v : α) (l : List (ℕ × α)) :
    (insSorted k v l).lookup k = some v := by
  induction l with
  | nil => simp [insSorted, lookup_cons_self]
  | cons a t ih =>
    unfold insSorted
    by_cases hle : k ≤ a.1
    · simp only [if_pos hle]; exact lookup_cons_self _ _ _
    · have hne : a.1 ≠ k := by omega
      simp only [if_neg hle]
      obtain ⟨a1, a2⟩ := a
      rw [lookup_cons_ne hne]
      exact ih

lemma lookup_insSorted_ne {α : Type} {k' k : ℕ} (h : k' ≠ k) (v : α)
    (l : List (ℕ × α)) : (insSorted k' v l).lookup k = l.lookup k := by
  induction l with
  | nil => simp [insSorted, lookup_cons_ne h]
  | cons a t ih =>
    unfold insSorted
    by_cases hle : k' ≤ a.1
    · simp only [if_pos hle]; exact lookup_cons_ne h _ _
    · obtain ⟨a1, a2⟩ := a
      by_cases hk : a1 = k
      · subst hk
        simp only [if_neg hle, lookup_cons_self]
      · simp only [if_neg hle]
        rw [lookup_cons_ne hk, lookup_cons_ne hk]
        exact ih

lemma insSorted_eq_append {α : Type} {k : ℕ} (v : α) {l : List (ℕ × α)}
    (h : ∀ kv ∈ l, kv.1 < k) : insSorted k v l = l ++ [(k, v)] := by
  induction l with
  | nil => simp [insSorted]
  | cons a t ih =>
    unfold insSorted
    have : ¬ k ≤ a.1 := by
      have := h a (List.mem_cons_self _ _); omega
    simp only [if_neg this, List.cons_append, List.cons.injEq, true_and]
    exact ih fun kv hkv => h kv (List.mem_cons_of_mem _ hkv)

/-! ## `lutGetOrInsert` and `convertPathS` lemmas -/

lemma lutGetOrInsert_of_present {lut : List (ℕ × TGlobalOrd)} {v : ℕ}
    {o : TGlobalOrd} (h : lut.lookup v = some o) :
    lutGetOrInsert lut v = (o, lut) := by
  simp [lutGetOrInsert, h]

lemma lutGetOrInsert_lookup_preserve {lut : List (ℕ × TGlobalOrd)} {k v : ℕ}
    {o : TGlobalOrd} (h : lut.lookup k = some o) :
    (lutGetOrInsert lut v).2.lookup k = some o := by
  unfold lutGetOrInsert
  cases hv : lut.lookup v with
  | some o' => simpa using h
  | none =>
    have hne : v ≠ k := by
      rintro rfl; rw [h] at hv; cases hv
    simpa [lookup_insSorted_ne hne] using h

lemma lutGetOrInsert_mem {lut : List (ℕ × TGlobalOrd)} {v : ℕ}
    {kv : ℕ × TGlobalOrd} (h : kv ∈ (lutGetOrInsert lut v).2) :
    kv ∈ lut ∨ kv.2 = ⟨0, 0⟩ := by
  unfold lutGetOrInsert at h
  cases hv : lut.lookup v with
  | some o' => rw [hv] at h; exact Or.inl h
  | none =>
    rw [hv] at h
    rcases (mem_insSorted _ _ _ _).mp h with h1 | h1
    · right; rw [h1]
    · exact Or.inl h1

lemma convertPathS_length (lut : List (ℕ × TGlobalOrd)) (vs : List ℕ) :
    (convertPathS lut vs).1.length = vs.length := by
  induction vs generalizing lut with
  | nil => rfl
  | cons v t ih => simp [convertPathS, ih]

lemma convertPathS_lookup_preserve {lut : List (ℕ × TGlobalOrd)} {k : ℕ}
    {o : TGlobalOrd} (vs : List ℕ) (h : lut.lookup k = some o) :
    (convertPathS lut vs).2.lookup k = some o := by
  induction vs generalizing lut with
  | nil => exact h
  | cons v t ih => exact ih (lutGetOrInsert_lookup_preserve h)

lemma convertPathS_head (lut : List (ℕ × TGlobalOrd)) (v : ℕ) (vs : List ℕ) :
    (convertPathS lut (v :: vs)).1.head? = some (lutGetOrInsert lut v).1 := by
  simp [convertPathS]

lemma convertPathS_getLast {lut : List (ℕ × TGlobalOrd)} {v : ℕ}
    {o : TGlobalOrd} (vs : List ℕ) (hv : vs.getLast? = some v)
    (ho : lut.lookup v = some o) :
    (convertPathS lut vs).1.getLast? = some o := by
  induction vs generalizing lut with
  | nil => cases hv
  | cons a t ih =>
    cases t with
    | nil =>
      simp only [List.getLast?_singleton, Option.some.injEq] at hv
      subst hv
      simp [convertPathS, (lutGetOrInsert_of_present ho)]
    | cons b t' =>
      rw [List.getLast?_cons_cons] at hv
      have hpr := lutGetOrInsert_lookup_preserve (v := a) ho
      have ihr := ih hv hpr
      have hstep : (convertPathS lut (a :: b :: t')).1
          = (lutGetOrInsert lut a).1 :: (convertPathS (lutGetOrInsert lut a).2 (b :: t')).1 := rfl
      rw [hstep]
      cases hc : (convertPathS (lutGetOrInsert lut a).2 (b :: t')).1 with
      | nil =>
        have hlen := convertPathS_length (lutGetOrInsert lut a).2 (b :: t')
        rw [hc] at hlen
        simp at hlen
      | cons c u =>
        rw [hc] at ihr
        rw [List.getLast?_cons_cons]
        exact ihr

lemma convertPathS_mem {lut : List (ℕ × TGlobalOrd)} {kv : ℕ × TGlobalOrd}
    (vs : List ℕ) (h : kv ∈ (convertPathS lut vs).2) :
    kv ∈ lut ∨ kv.2 = ⟨0, 0⟩ := by
  induction vs generalizing lut with
  | nil => exact Or.inl h
  | cons v t ih =>
    rcases ih h with h1 | h1
    · exact lutGetOrInsert_mem h1
    · exact Or.inr h1

/-! ## Dijkstra path-reconstruction lemmas -/

lemma pathTo_endpoints (prev : List (ℕ × ℕ)) (src : ℕ) :
    ∀ fuel dst, pathTo prev src fuel dst ≠ [] →
      (pathTo prev src fuel dst).head? = some src ∧
      (pathTo prev src fuel dst).getLast? = some dst := by
  intro fuel
  induction fuel with
  | zero => intro dst h; simp [pathTo] at h
  | succ f ih =>
    intro dst h
    by_cases hd : dst = src
    · subst hd; simp [pathTo]
    · simp only [pathTo, if_neg hd] at h ⊢
      cases hp : prev.lookup dst with
      | none => rw [hp] at h; simp at h
      | some p =>
        rw [hp] at h
        dsimp only at h ⊢
        cases hrec : pathTo prev src f p with
        | nil => simp [hrec] at h
        | cons c u =>
          dsimp only
          obtain ⟨ihh, _⟩ := ih p (by rw [hrec]; simp)
          rw [hrec] at ihh
          simp only [List.head?_cons, Option.some.injEq] at ihh
          constructor
          · simp [ihh]
          · exact List.getLast?_concat _

lemma shortestPath_endpoints {g : Graph} {src dst : ℕ}
    (h : shortestPath g src dst ≠ []) :
    (shortestPath g src dst).head? = some src ∧
    (shortestPath g src dst).getLast? = some dst := by
  unfold shortestPath at h ⊢
  exact pathTo_endpoints _ _ _ _ h

/-! ## `findOrAdd` lemmas -/

lemma existsAsVertex_eq_false_no_match {st : GlobalMap} {p : TGlobalOrd}
    (he : st.existsAsVertex p = false) :
    ∀ kv ∈ st.vertexLUT, kv.2 ≠ p := by
  intro kv hkv hcontra
  have : st.existsAsVertex p = true := by
    apply List.any_eq_true.mpr
    exact ⟨kv, hkv, by rw [hcontra]; simp⟩
  rw [this] at he; cases he

lemma findOrAdd_lookup_self {st : GlobalMap} (p : TGlobalOrd)
    (hp : List.Pairwise (fun a b => a.1 < b.1) st.vertexLUT) :
    (st.findOrAdd p).2.vertexLUT.lookup (st.findOrAdd p).1 = some p := by
  unfold GlobalMap.findOrAdd
  by_cases he : st.existsAsVertex p
  · simp only [if_pos he]
    cases hfind : st.vertexLUT.find? (fun kv => kv.2.x == p.x && kv.2.y == p.y) with
    | none =>
      exfalso
      obtain ⟨kv, hmem, hpred⟩ := List.any_eq_true.mp he
      exact absurd hpred (by simpa using List.find?_eq_none.mp hfind kv hmem)
    | some kv' =>
      have hpred' := List.find?_some hfind
      have hmem' := List.mem_of_find?_eq_some hfind
      have hkv' : kv'.2 = p := by
        simp only [Bool.and_eq_true, beq_iff_eq] at hpred'
        cases hkv2 : kv'.2
        cases p
        simp_all
      simp only [GlobalMap.lookupOrd, hfind, Option.map_some', Option.getD_some]
      have hm : (kv'.1, kv'.2) ∈ st.vertexLUT := by simpa using hmem'
      rw [hkv'] at hm
      exact lookup_of_mem_pairwise hp hm
  · simp only [if_neg he]
    exact lookup_insSorted_self _ _ _

lemma findOrAdd_result_present (st : GlobalMap) (p : TGlobalOrd) :
    ((st.findOrAdd p).2.vertexLUT.lookup (st.findOrAdd p).1).isSome := by
  unfold GlobalMap.findOrAdd
  by_cases he : st.existsAsVertex p
  · simp only [if_pos he]
    cases hfind : st.vertexLUT.find? (fun kv => kv.2.x == p.x && kv.2.y == p.y) with
    | none =>
      exfalso
      obtain ⟨kv, hmem, hpred⟩ := List.any_eq_true.mp he
      exact absurd hpred (by simpa using List.find?_eq_none.mp hfind kv hmem)
    | some kv' =>
      have hmem' := List.mem_of_find?_eq_some hfind
      simp only [GlobalMap.lookupOrd, hfind, Option.map_some', Option.getD_some]
      exact lookup_isSome_of_mem (k := kv'.1) (v := kv'.2) (by simpa using hmem')
  · simp only [if_neg he]
    rw [lookup_insSorted_self]
    rfl

lemma findOrAdd_preserve {st : GlobalMap} {k : ℕ} {o : TGlobalOrd} (p : TGlobalOrd)
    (hb : ∀ kv ∈ st.vertexLUT, kv.1 < st.nextVertexId)
    (h : st.vertexLUT.lookup k = some o) :
    (st.findOrAdd p).2.vertexLUT.lookup k = some o := by
  unfold GlobalMap.findOrAdd
  by_cases he : st.existsAsVertex p
  · simpa [if_pos he] using h
  · simp only [if_neg he]
    have hk : k < st.nextVertexId := hb _ (mem_of_lookup_some h)
    rw [lookup_insSorted_ne (by omega) _ _]
    exact h

lemma findOrAdd_bound {st : GlobalMap} (p : TGlobalOrd)
    (hb : ∀ kv ∈ st.vertexLUT, kv.1 < st.nextVertexId) :
    ∀ kv ∈ (st.findOrAdd p).2.vertexLUT, kv.1 < (st.findOrAdd p).2.nextVertexId := by
  unfold GlobalMap.findOrAdd
  by_cases he : st.existsAsVertex p
  · simp only [if_pos he]
    exact hb
  · simp only [if_neg he]
    intro kv hkv
    rcases (mem_insSorted _ _ _ _).mp hkv with h1 | h1
    · rw [h1]
      show st.nextVertexId < st.nextVertexId + 1
      omega
    · have := hb _ h1
      show kv.1 < st.nextVertexId + 1
      omega

lemma findOrAdd_WF {st : GlobalMap} (p : TGlobalOrd) (h : RoadmapWF st) :
    RoadmapWF (st.findOrAdd p).2 := by
  obtain ⟨hpair, hbound, hdist⟩ := h
  unfold GlobalMap.findOrAdd
  by_cases he : st.existsAsVertex p
  · simp only [if_pos he]
    exact ⟨hpair, hbound, hdist⟩
  · simp only [if_neg he]
    have happ := @insSorted_eq_append _ st.nextVertexId p st.vertexLUT hbound
    refine ⟨?_, ?_, ?_⟩
    · show List.Pairwise _ (insSorted st.nextVertexId p st.vertexLUT)
      rw [happ]
      apply List.pairwise_append.mpr
      refine ⟨hpair, List.pairwise_singleton _ _, ?_⟩
      intro a ha b hb'
      simp only [List.mem_singleton] at hb'
      rw [hb']
      exact hbound a ha
    · intro kv hkv
      rcases (mem_insSorted _ _ _ _).mp hkv with h1 | h1
      · rw [h1]
        show st.nextVertexId < st.nextVertexId + 1
        omega
      · have := hbound _ h1
        show kv.1 < st.nextVertexId + 1
        omega
    · show ∀ a ∈ insSorted st.nextVertexId p st.vertexLUT, _
      intro a ha b hb'
      rw [happ] at ha hb'
      have hno := existsAsVertex_eq_false_no_match (Bool.eq_false_iff.mpr he)
      rcases List.mem_append.mp ha with ha1 | ha1 <;>
        rcases List.mem_append.mp hb' with hb1 | hb1
      · exact hdist a ha1 b hb1
      · intro hab
        simp only [List.mem_singleton] at hb1
        exfalso
        exact hno a ha1 (by rw [hab, hb1])
      · intro hab
        simp only [List.mem_singleton] at ha1
        exfalso
        exact hno b hb1 (by rw [← hab, ha1])
      · simp only [List.mem_singleton] at ha1 hb1
        intro _
        rw [ha1, hb1]

/-! ## `connectToExistingNodes` lemmas -/

lemma foldl_connectStep_fields (m : Grid) (node : ℕ) (ordN : TGlobalOrd) (pNode : Pt) :
    ∀ (l : List (ℕ × TGlobalOrd)) (acc : GlobalMap),
      (l.foldl (connectStep m node ordN pNode) acc).vertexLUT = acc.vertexLUT ∧
      (l.foldl (connectStep m node ordN pNode) acc).nextVertexId = acc.nextVertexId ∧
      (l.foldl (connectStep m node ordN pNode) acc).reference = acc.reference ∧
      (l.foldl (connectStep m node ordN pNode) acc).mapSize = acc.mapSize ∧
      (l.foldl (connectStep m node ordN pNode) acc).mapRes = acc.mapRes ∧
      (l.foldl (connectStep m node ordN pNode) acc).robotDiameter = acc.robotDiameter := by
  intro l
  induction l with
  | nil => intro acc; exact ⟨rfl, rfl, rfl, rfl, rfl, rfl⟩
  | cons kv t ih =>
    intro acc
    have hstep : (connectStep m node ordN pNode acc kv).vertexLUT = acc.vertexLUT ∧
        (connectStep m node ordN pNode acc kv).nextVertexId = acc.nextVertexId ∧
        (connectStep m node ordN pNode acc kv).reference = acc.reference ∧
        (connectStep m node ordN pNode acc kv).mapSize = acc.mapSize ∧
        (connectStep m node ordN pNode acc kv).mapRes = acc.mapRes ∧
        (connectStep m node ordN pNode acc kv).robotDiameter = acc.robotDiameter := by
      unfold connectStep
      by_cases h1 : kv.1 = node
      · rw [if_pos h1]
        exact ⟨rfl, rfl, rfl, rfl, rfl, rfl⟩
      · rw [if_neg h1]
        by_cases h2 : canConnect m pNode (acc.toPoint kv.2) = true
        · rw [if_pos h2]
          exact ⟨rfl, rfl, rfl, rfl, rfl, rfl⟩
        · rw [if_neg h2]
          exact ⟨rfl, rfl, rfl, rfl, rfl, rfl⟩
    have ihr := ih (connectStep m node ordN pNode acc kv)
    simp only [List.foldl_cons]
    exact ⟨ihr.1.trans hstep.1, ihr.2.1.trans hstep.2.1, ihr.2.2.1.trans hstep.2.2.1,
      ihr.2.2.2.1.trans hstep.2.2.2.1, ihr.2.2.2.2.1.trans hstep.2.2.2.2.1,
      ihr.2.2.2.2.2.trans hstep.2.2.2.2.2⟩

lemma connect_fields {st : GlobalMap} {m : Grid} {node : ℕ}
    (h : (st.vertexLUT.lookup node).isSome) :
    (st.connectToExistingNodes m node).vertexLUT = st.vertexLUT ∧
    (st.connectToExistingNodes m node).nextVertexId = st.nextVertexId := by
  obtain ⟨o, ho⟩ := Option.isSome_iff_exists.mp h
  unfold GlobalMap.connectToExistingNodes
  rw [lutGetOrInsert_of_present ho]
  have hf := foldl_connectStep_fields m node o (st.toPoint o) st.vertexLUT
    { st with vertexLUT := st.vertexLUT }
  exact ⟨hf.1, hf.2.1⟩

/-! ## Untranslated-result lemmas for `build` -/

lemma convert_endpoints {lut : List (ℕ × TGlobalOrd)} {vS vG : ℕ}
    {start goal : TGlobalOrd} {vPath : List ℕ}
    (hS : lut.lookup vS = some start) (hG : lut.lookup vG = some goal)
    (hne : vPath ≠ [])
    (hh : vPath.head? = some vS) (hl : vPath.getLast? = some vG) :
    UntranslatedResult start goal (convertPathS lut vPath).1 := by
  obtain ⟨v, t, rfl⟩ := List.exists_cons_of_ne_nil hne
  have hv : v = vS := by simpa using hh
  subst hv
  refine ⟨?_, ?_, v :: t, lut, rfl, ?_⟩
  · rw [convertPathS_head, lutGetOrInsert_of_present hS]
  · exact convertPathS_getLast _ hl hG
  · exact (convertPathS_length _ _).symm

lemma LoopInv_findOrAdd {vS vG : ℕ} {start goal : TGlobalOrd} {st : GlobalMap}
    (p : TGlobalOrd) (h : LoopInv vS vG start goal st) :
    LoopInv vS vG start goal (st.findOrAdd p).2 :=
  ⟨findOrAdd_bound p h.1, findOrAdd_preserve p h.1 h.2.1,
   findOrAdd_preserve p h.1 h.2.2⟩

lemma LoopInv_connect {vS vG : ℕ} {start goal : TGlobalOrd} {st : GlobalMap}
    {m : Grid} {node : ℕ} (hpres : (st.vertexLUT.lookup node).isSome)
    (h : LoopInv vS vG start goal st) :
    LoopInv vS vG start goal (st.connectToExistingNodes m node) := by
  obtain ⟨hl, hn⟩ := connect_fields (m := m) hpres
  refine ⟨?_, ?_, ?_⟩
  · rw [hl, hn]; exact h.1
  · rw [hl]; exact h.2.1
  · rw [hl]; exact h.2.2

lemma samplingLoop_untranslated (m : Grid) (vS vG : ℕ) (samples : ℕ → ℚ × ℚ)
    (start goal : TGlobalOrd) :
    ∀ fuel cnt st, LoopInv vS vG start goal st →
      (samplingLoop m vS vG samples fuel cnt st).1 ≠ [] →
      UntranslatedResult start goal (samplingLoop m vS vG samples fuel cnt st).1 := by
  intro fuel
  induction fuel with
  | zero => intro cnt st _ h; simp [samplingLoop] at h
  | succ f ih =>
    intro cnt st hInv h
    simp only [samplingLoop] at h ⊢
    by_cases hbreak : cnt + 1 = 1000
    · rw [if_pos hbreak] at h
      exact absurd rfl h
    · rw [if_neg hbreak] at h ⊢
      by_cases hacc : (!isAccessible m (st.toPoint (roundOrd (samples cnt)))) = true
      · rw [if_pos hacc] at h ⊢
        exact ih (cnt + 1) st hInv h
      · rw [if_neg hacc] at h ⊢
        have hInv1 := LoopInv_findOrAdd (roundOrd (samples cnt)) hInv
        have hpres := findOrAdd_result_present st (roundOrd (samples cnt))
        have hInv2 := LoopInv_connect (m := m) hpres hInv1
        by_cases hvp : (shortestPath ((st.findOrAdd (roundOrd (samples cnt))).2.connectToExistingNodes
            m (st.findOrAdd (roundOrd (samples cnt))).1).graph vS vG).isEmpty = true
        · rw [if_pos hvp] at h ⊢
          exact ih (cnt + 1) _ hInv2 h
        · rw [if_neg hvp] at h ⊢
          have hvne : shortestPath ((st.findOrAdd (roundOrd (samples cnt))).2.connectToExistingNodes
              m (st.findOrAdd (roundOrd (samples cnt))).1).graph vS vG ≠ [] := by
            intro hcontra
            rw [hcontra] at hvp
            simp at hvp
          obtain ⟨hh, hl⟩ := shortestPath_endpoints hvne
          exact convert_endpoints hInv2.2.1 hInv2.2.2 hvne hh hl

lemma buildRest_untranslated {m : Grid} {vS vG : ℕ} {samples : ℕ → ℚ × ℚ}
    {st : GlobalMap} {start goal : TGlobalOrd}
    (hInv : LoopInv vS vG start goal st)
    (h : (buildRest m vS vG samples st).1 ≠ []) :
    UntranslatedResult start goal (buildRest m vS vG samples st).1 := by
  simp only [buildRest] at h ⊢
  by_cases hvp : (!(shortestPath st.graph vS vG).isEmpty) = true
  · rw [if_pos hvp] at h ⊢
    have hvne : shortestPath st.graph vS vG ≠ [] := by
      intro hcontra; rw [hcontra] at hvp; simp at hvp
    obtain ⟨hh, hl⟩ := shortestPath_endpoints hvne
    exact convert_endpoints hInv.2.1 hInv.2.2 hvne hh hl
  · rw [if_neg hvp] at h ⊢
    have hpresS : (st.vertexLUT.lookup vS).isSome := by rw [hInv.2.1]; rfl
    have hInv1 := LoopInv_connect (m := m) hpresS hInv
    have hpresG : ((st.connectToExistingNodes m vS).vertexLUT.lookup vG).isSome := by
      rw [hInv1.2.2]; rfl
    have hInv2 := LoopInv_connect (m := m) hpresG hInv1
    by_cases hvp2 : (!(shortestPath ((st.connectToExistingNodes m vS).connectToExistingNodes
        m vG).graph vS vG).isEmpty) = true
    · rw [if_pos hvp2] at h ⊢
      have hvne : shortestPath ((st.connectToExistingNodes m vS).connectToExistingNodes
          m vG).graph vS vG ≠ [] := by
        intro hcontra; rw [hcontra] at hvp2; simp at hvp2
      obtain ⟨hh, hl⟩ := shortestPath_endpoints hvne
      exact convert_endpoints hInv2.2.1 hInv2.2.2 hvne hh hl
    · rw [if_neg hvp2] at h ⊢
      exact samplingLoop_untranslated m vS vG samples start goal 1000 0 _ hInv2 h

/-! ## Sampling-loop bound lemmas -/

lemma samplingLoop_sample_dep {s1 s2 : ℕ → ℚ × ℚ} (m : Grid) (vS vG : ℕ)
    (h : ∀ i < 999, s1 i = s2 i) :
    ∀ fuel cnt st, cnt ≤ 999 →
      samplingLoop m vS vG s1 fuel cnt st = samplingLoop m vS vG s2 fuel cnt st := by
  intro fuel
  induction fuel with
  | zero => intro cnt st _; rfl
  | succ f ih =>
    intro cnt st hcnt
    simp only [samplingLoop]
    by_cases hbreak : cnt + 1 = 1000
    · rw [if_pos hbreak, if_pos hbreak]
    · rw [if_neg hbreak, if_neg hbreak]
      have hs : s1 cnt = s2 cnt := h cnt (by omega)
      rw [hs]
      by_cases hacc : (!isAccessible m (st.toPoint (roundOrd (s2 cnt)))) = true
      · rw [if_pos hacc, if_pos hacc]
        exact ih (cnt + 1) st (by omega)
      · rw [if_neg hacc, if_neg hacc]
        by_cases hvp : (shortestPath ((st.findOrAdd (roundOrd (s2 cnt))).2.connectToExistingNodes
            m (st.findOrAdd (roundOrd (s2 cnt))).1).graph vS vG).isEmpty = true
        · rw [if_pos hvp, if_pos hvp]
          exact ih (cnt + 1) _ (by omega)
        · rw [if_neg hvp, if_neg hvp]

lemma samplingLoop_found (m : Grid) (vS vG : ℕ) (s : ℕ → ℚ × ℚ) :
    ∀ fuel cnt st, (samplingLoop m vS vG s fuel cnt st).1 ≠ [] →
      shortestPath (samplingLoop m vS vG s fuel cnt st).2.graph vS vG ≠ [] := by
  intro fuel
  induction fuel with
  | zero => intro cnt st h; exact absurd rfl h
  | succ f ih =>
    intro cnt st h
    simp only [samplingLoop] at h ⊢
    by_cases hbreak : cnt + 1 = 1000
    · rw [if_pos hbreak] at h
      exact absurd rfl h
    · rw [if_neg hbreak] at h ⊢
      by_cases hacc : (!isAccessible m (st.toPoint (roundOrd (s cnt)))) = true
      · rw [if_pos hacc] at h ⊢
        exact ih (cnt + 1) st h
      · rw [if_neg hacc] at h ⊢
        by_cases hvp : (shortestPath ((st.findOrAdd (roundOrd (s cnt))).2.connectToExistingNodes
            m (st.findOrAdd (roundOrd (s cnt))).1).graph vS vG).isEmpty = true
        · rw [if_pos hvp] at h ⊢
          exact ih (cnt + 1) _ h
        · rw [if_neg hvp] at h ⊢
          intro hcontra
          rw [hcontra] at hvp
          simp at hvp

lemma buildRest_sample_dep {s1 s2 : ℕ → ℚ × ℚ} (h : ∀ i < 999, s1 i = s2 i)
    (m : Grid) (vS vG : ℕ) (st : GlobalMap) :
    buildRest m vS vG s1 st = buildRest m vS vG s2 st := by
  simp only [buildRest]
  by_cases hvp : (!(shortestPath st.graph vS vG).isEmpty) = true
  · rw [if_pos hvp, if_pos hvp]
  · rw [if_neg hvp, if_neg hvp]
    by_cases hvp2 : (!(shortestPath ((st.connectToExistingNodes m vS).connectToExistingNodes
        m vG).graph vS vG).isEmpty) = true
    · rw [if_pos hvp2, if_pos hvp2]
    · rw [if_neg hvp2, if_neg hvp2]
      exact samplingLoop_sample_dep m vS vG h 1000 0 _ (by omega)

lemma build_sample_dep {s1 s2 : ℕ → ℚ × ℚ} (h : ∀ i < 999, s1 i = s2 i)
    (st : GlobalMap) (m : Grid) (a b : TGlobalOrd) (v w : ℕ) :
    st.build m a b v w s1 = st.build m a b v w s2 := by
  simp only [GlobalMap.build]
  by_cases hguard : (!st.existsAsVertex a || !st.existsAsVertex b) = true
  · rw [if_pos hguard, if_pos hguard]
    by_cases hacc : (!isAccessible (expandConfigSpace m st.robotDiameter st.mapRes) (st.toPoint a)
        || !isAccessible (expandConfigSpace m st.robotDiameter st.mapRes) (st.toPoint b)) = true
    · rw [if_pos hacc, if_pos hacc]
    · rw [if_neg hacc, if_neg hacc]
      exact buildRest_sample_dep h _ _ _ _
  · rw [if_neg hguard, if_neg hguard]
    exact buildRest_sample_dep h _ _ _ _

/-! ## `runFindOrAdds` id-discipline lemmas -/

lemma findOrAdd_of_exists {st : GlobalMap} {p : TGlobalOrd}
    (he : st.existsAsVertex p = true) :
    (st.findOrAdd p).2 = st ∧ ((st.findOrAdd p).1, p) ∈ st.vertexLUT := by
  refine ⟨by simp [GlobalMap.findOrAdd, he], ?_⟩
  simp only [GlobalMap.findOrAdd, he, if_true]
  cases hfind : st.vertexLUT.find? (fun kv => kv.2.x == p.x && kv.2.y == p.y) with
  | none =>
    exfalso
    obtain ⟨kv, hmem, hpred⟩ := List.any_eq_true.mp he
    exact absurd hpred (by simpa using List.find?_eq_none.mp hfind kv hmem)
  | some kv' =>
    have hpred' := List.find?_some hfind
    have hmem' := List.mem_of_find?_eq_some hfind
    have hkv' : kv'.2 = p := by
      simp only [Bool.and_eq_true, beq_iff_eq] at hpred'
      cases hkv2 : kv'.2
      cases p
      simp_all
    simp only [GlobalMap.lookupOrd, hfind, Option.map_some', Option.getD_some]
    have : (kv'.1, kv'.2) ∈ st.vertexLUT := by simpa using hmem'
    rwa [hkv'] at this

lemma findOrAdd_of_fresh {st : GlobalMap} {p : TGlobalOrd}
    (hb : ∀ kv ∈ st.vertexLUT, kv.1 < st.nextVertexId)
    (he : st.existsAsVertex p = false) :
    (st.findOrAdd p).1 = st.nextVertexId ∧
    (st.findOrAdd p).2.nextVertexId = st.nextVertexId + 1 ∧
    (st.findOrAdd p).2.vertexLUT = st.vertexLUT ++ [(st.nextVertexId, p)] := by
  have he' : ¬ st.existsAsVertex p = true := by simp [he]
  refine ⟨by simp [GlobalMap.findOrAdd, he'], by simp [GlobalMap.findOrAdd, he'], ?_⟩
  simp only [GlobalMap.findOrAdd, he', if_false]
  exact insSorted_eq_append p hb

lemma runFindOrAdds_snd (st : GlobalMap) (p : TGlobalOrd) (t : List TGlobalOrd) :
    (runFindOrAdds st (p :: t)).2 = (runFindOrAdds (st.findOrAdd p).2 t).2 := rfl

lemma runFindOrAdds_keys {st : GlobalMap} (ps : List TGlobalOrd) (h : RoadmapWF st) :
    RoadmapWF (runFindOrAdds st ps).2 ∧
    ∃ k, (runFindOrAdds st ps).2.vertexLUT.map Prod.fst
          = st.vertexLUT.map Prod.fst ++ List.range' st.nextVertexId k ∧
        (runFindOrAdds st ps).2.nextVertexId = st.nextVertexId + k := by
  induction ps generalizing st with
  | nil => exact ⟨h, 0, by simp [runFindOrAdds], rfl⟩
  | cons p t ih =>
    have hWF1 := findOrAdd_WF p h
    obtain ⟨hWF2, k, hkeys, hnid⟩ := ih hWF1
    rw [runFindOrAdds_snd]
    refine ⟨hWF2, ?_⟩
    by_cases he : st.existsAsVertex p = true
    · have hfa := (findOrAdd_of_exists he).1
      rw [hfa] at hkeys hnid
      rw [hfa]
      exact ⟨k, hkeys, hnid⟩
    · have he' : st.existsAsVertex p = false := by
        cases hx : st.existsAsVertex p
        · rfl
        · exact absurd hx he
      obtain ⟨_, hnid', hlut⟩ := findOrAdd_of_fresh h.2.1 he'
      refine ⟨k + 1, ?_, ?_⟩
      · rw [hkeys, hlut, hnid', List.map_append, List.append_assoc]
        rfl
      · rw [hnid, hnid']
        omega

/-! ## Dispersion-grid lemmas -/

lemma roundOrd_onGrid (raw : ℚ × ℚ) : onGrid (roundOrd raw) :=
  ⟨⟨roundQ (raw.1 * 10), rfl⟩, ⟨roundQ (raw.2 * 10), rfl⟩⟩

lemma onGrid_origin : onGrid ⟨0, 0⟩ :=
  ⟨⟨0, by norm_num⟩, ⟨0, by norm_num⟩⟩

lemma findOrAdd_mem {st : GlobalMap} {p : TGlobalOrd} {kv : ℕ × TGlobalOrd}
    (h : kv ∈ (st.findOrAdd p).2.vertexLUT) : kv ∈ st.vertexLUT ∨ kv.2 = p := by
  unfold GlobalMap.findOrAdd at h
  by_cases he : st.existsAsVertex p = true
  · rw [if_pos he] at h
    exact Or.inl h
  · rw [if_neg he] at h
    rcases (mem_insSorted _ _ _ _).mp h with h1 | h1
    · right; rw [h1]
    · exact Or.inl h1

lemma connect_lut_raw (st : GlobalMap) (m : Grid) (node : ℕ) :
    (st.connectToExistingNodes m node).vertexLUT
      = (lutGetOrInsert st.vertexLUT node).2 := by
  unfold GlobalMap.connectToExistingNodes
  exact (foldl_connectStep_fields _ _ _ _ _ _).1

lemma samplingLoop_new_vertices (m : Grid) (vS vG : ℕ) (s : ℕ → ℚ × ℚ) :
    ∀ fuel cnt st kv, kv ∈ (samplingLoop m vS vG s fuel cnt st).2.vertexLUT →
      kv ∈ st.vertexLUT ∨ onGrid kv.2 := by
  intro fuel
  induction fuel with
  | zero => intro cnt st kv h; exact Or.inl h
  | succ f ih =>
    intro cnt st kv h
    simp only [samplingLoop] at h
    by_cases hbreak : cnt + 1 = 1000
    · rw [if_pos hbreak] at h
      exact Or.inl h
    · rw [if_neg hbreak] at h
      by_cases hacc : (!isAccessible m (st.toPoint (roundOrd (s cnt)))) = true
      · rw [if_pos hacc] at h
        exact ih (cnt + 1) st kv h
      · rw [if_neg hacc] at h
        have hmemchain : ∀ kv', kv' ∈ ((st.findOrAdd (roundOrd (s cnt))).2.connectToExistingNodes
            m (st.findOrAdd (roundOrd (s cnt))).1).vertexLUT →
            kv' ∈ st.vertexLUT ∨ onGrid kv'.2 := by
          intro kv' hkv'
          rw [connect_lut_raw] at hkv'
          rcases lutGetOrInsert_mem hkv' with h1 | h1
          · rcases findOrAdd_mem h1 with h2 | h2
            · exact Or.inl h2
            · right; rw [h2]; exact roundOrd_onGrid _
          · right; rw [h1]; exact onGrid_origin
        by_cases hvp : (shortestPath ((st.findOrAdd (roundOrd (s cnt))).2.connectToExistingNodes
            m (st.findOrAdd (roundOrd (s cnt))).1).graph vS vG).isEmpty = true
        · rw [if_pos hvp] at h
          rcases ih (cnt + 1) _ kv h with h1 | h1
          · exact hmemchain kv h1
          · exact Or.inr h1
        · rw [if_neg hvp] at h
          rcases convertPathS_mem _ h with h1 | h1
          · exact hmemchain kv h1
          · right; rw [h1]; exact onGrid_origin

lemma onGrid_separation {p q : TGlobalOrd} (hp : onGrid p) (hq : onGrid q)
    (hne : p ≠ q) : 1/100 ≤ dist2 p q := by
  obtain ⟨px, py⟩ := p
  obtain ⟨qx, qy⟩ := q
  obtain ⟨⟨a, hax⟩, ⟨b, hby⟩⟩ := hp
  obtain ⟨⟨c, hcx⟩, ⟨d, hdy⟩⟩ := hq
  simp only at hax hby hcx hdy
  subst hax hby hcx hdy
  have hdiff : a ≠ c ∨ b ≠ d := by
    by_contra hcon
    push_neg at hcon
    exact hne (by rw [hcon.1, hcon.2])
  have key : ∀ e f : ℤ, e ≠ f → (1 : ℚ) / 100 ≤ ((f : ℚ) / 10 - (e : ℚ) / 10) ^ 2 := by
    intro e f hef
    have h1 : (1 : ℤ) ≤ |f - e| := Int.one_le_abs (by omega)
    have h2 : (1 : ℚ) ≤ ((f : ℚ) - (e : ℚ)) ^ 2 := by
      have h3 : (1 : ℤ) ≤ (f - e) ^ 2 := by nlinarith [abs_nonneg (f - e), sq_abs (f - e)]
      have h4 : ((1 : ℤ) : ℚ) ≤ (((f - e) ^ 2 : ℤ) : ℚ) := Int.cast_le.mpr h3
      push_cast at h4
      linarith
    have h5 : ((f : ℚ) / 10 - (e : ℚ) / 10) ^ 2 = ((f : ℚ) - (e : ℚ)) ^ 2 / 100 := by
      ring
    rw [h5]
    linarith
  unfold dist2
  simp only
  rcases hdiff with hd | hd
  · have := key a c hd
    nlinarith [sq_nonneg ((d : ℚ) / 10 - (b : ℚ) / 10)]
  · have := key b d hd
    nlinarith [sq_nonneg ((c : ℚ) / 10 - (a : ℚ) / 10)]

/-! ## Claim theorems -/

unseal Rat.mul Rat.inv Rat.add Rat.sub in
/-- C1: the claim states that `build` always checks accessibility and always
obtains `v_s`/`v_g` via `find_or_add` before any shortest-path query, also
when start and goal already exist as vertices.  The code skips the whole
setup block in that case (globalmap.cpp:120-132) and queries the graph with
the uninitialised locals `vStart`/`vGoal`: on an entirely occupied grid — so
both endpoints are inaccessible — `build` still returns a non-empty path,
and the returned path depends on the junk values modelled by `vStart0 = 0,
vGoal0 = 1` versus `1, 0`. -/
theorem build_skips_checks_when_vertices_exist :
    (stBoth.build gridBlocked ⟨0, 0⟩ ⟨2, 0⟩ 0 1 samsNone).1 = [⟨0, 0⟩, ⟨2, 0⟩] ∧
    (stBoth.build gridBlocked ⟨0, 0⟩ ⟨2, 0⟩ 1 0 samsNone).1 = [⟨2, 0⟩, ⟨0, 0⟩] ∧
    isAccessible (expandConfigSpace gridBlocked stBoth.robotDiameter stBoth.mapRes)
      (stBoth.toPoint ⟨0, 0⟩) = false ∧
    isAccessible (expandConfigSpace gridBlocked stBoth.robotDiameter stBoth.mapRes)
      (stBoth.toPoint ⟨2, 0⟩) = false :=
  ⟨rfl, rfl, rfl, rfl⟩

unseal Rat.mul Rat.inv Rat.add Rat.sub in
/-- C2 counterexample: `GlobalMap::build` applies no `optimise_path` pass.
First run: from `stMid` (a prior vertex at `(2,0)`), `build` in free space
from `(0,0)` to `(4,0)` returns the three-point path through `(2,0)` even
though the direct segment is collision-free — `optimise_path` of that path
is the two-point shortcut, so the returned path differs from the
optimisation of its own translation.  Second run: after a first build
connected `(0,0)`–`(2,0)` in free space, a second build on a walled grid
returns a path that traverses that stale edge although its segment is no
longer line-of-sight collision-free in the current C-space. -/
theorem build_path_not_optimised :
    (stMid.build gridFree ⟨0, 0⟩ ⟨4, 0⟩ 0 0 samsNone).1 = [⟨0, 0⟩, ⟨2, 0⟩, ⟨4, 0⟩] ∧
    optimisePath st0 (expandConfigSpace gridFree st0.robotDiameter st0.mapRes)
      [⟨0, 0⟩, ⟨2, 0⟩, ⟨4, 0⟩] = [⟨0, 0⟩, ⟨4, 0⟩] ∧
    ((st0.build gridFree ⟨0, 0⟩ ⟨2, 0⟩ 0 0 samsNone).2.build gridWall
        ⟨-1, 0⟩ ⟨3, 0⟩ 0 0 samsNone).1 = [⟨-1, 0⟩, ⟨0, 0⟩, ⟨2, 0⟩, ⟨3, 0⟩] ∧
    canConnect (expandConfigSpace gridWall st0.robotDiameter st0.mapRes)
      (st0.toPoint ⟨0, 0⟩) (st0.toPoint ⟨2, 0⟩) = false :=
  ⟨rfl, rfl, rfl, rfl⟩

/-- C2 (amended): on a well-formed roadmap state, whenever the setup block
runs (start and goal do not both pre-exist as vertices), every non-empty path
returned by `build` is exactly the ordinate translation of the found vertex
path with no optimisation pass: its first and last ordinates equal start and
goal and its segment count equals the vertex path's. -/
theorem build_returns_untranslated_path (st : GlobalMap) (m : Grid)
    (start goal : TGlobalOrd) (vS0 vG0 : ℕ) (samples : ℕ → ℚ × ℚ)
    (hWF : RoadmapWF st)
    (hsetup : ¬(st.existsAsVertex start = true ∧ st.existsAsVertex goal = true))
    (hne : (st.build m start goal vS0 vG0 samples).1 ≠ []) :
    UntranslatedResult start goal (st.build m start goal vS0 vG0 samples).1 := by
  simp only [GlobalMap.build] at hne ⊢
  have hguard : (!st.existsAsVertex start || !st.existsAsVertex goal) = true := by
    cases hs : st.existsAsVertex start <;> cases hg : st.existsAsVertex goal <;> simp_all
  rw [if_pos hguard] at hne ⊢
  by_cases hacc : (!isAccessible (expandConfigSpace m st.robotDiameter st.mapRes)
      (st.toPoint start)
      || !isAccessible (expandConfigSpace m st.robotDiameter st.mapRes)
      (st.toPoint goal)) = true
  · rw [if_pos hacc] at hne
    exact absurd rfl hne
  · rw [if_neg hacc] at hne ⊢
    have hS1 : (st.findOrAdd start).2.vertexLUT.lookup (st.findOrAdd start).1
        = some start := findOrAdd_lookup_self start hWF.1
    have hWFs := findOrAdd_WF start hWF
    have hS2 := findOrAdd_preserve goal hWFs.2.1 hS1
    have hG2 : ((st.findOrAdd start).2.findOrAdd goal).2.vertexLUT.lookup
        ((st.findOrAdd start).2.findOrAdd goal).1 = some goal :=
      findOrAdd_lookup_self goal hWFs.1
    have hInv : LoopInv (st.findOrAdd start).1 ((st.findOrAdd start).2.findOrAdd goal).1
        start goal ((st.findOrAdd start).2.findOrAdd goal).2 :=
      ⟨findOrAdd_bound goal hWFs.2.1, hS2, hG2⟩
    exact buildRest_untranslated hInv hne

set_option maxRecDepth 100000 in
unseal Rat.mul Rat.inv Rat.add Rat.sub in
/-- C2 witness: the amended theorem applied at a concrete run (prior vertex
at `(2,0)`, free grid, start `(0,0)`, goal `(4,0)`). -/
theorem build_returns_untranslated_path_witness :
    RoadmapWF stMid ∧
    UntranslatedResult ⟨0, 0⟩ ⟨4, 0⟩ (stMid.build gridFree ⟨0, 0⟩ ⟨4, 0⟩ 0 0 samsNone).1 :=
  ⟨by decide, build_returns_untranslated_path stMid gridFree ⟨0, 0⟩ ⟨4, 0⟩ 0 0 samsNone
    (by decide) (by decide) (by decide)⟩

set_option maxRecDepth 100000 in
unseal Rat.mul Rat.inv Rat.add Rat.sub in
/-- C3 counterexample: the sampling loop of `build` applies no dispersion
filter.  With the stream `samsDisp`, the sample `(2.1, 0)` is accepted as a
new vertex (id 3) although the vertex `(2, 0)` (id 2), itself accepted from
the same loop two iterations earlier, lies at Euclidean distance exactly
0.1 m (squared distance 1/100) — closer than any meaningful DispersionRadius. -/
theorem sampling_accepts_adjacent_sample :
    ((2 : ℕ), (⟨2, 0⟩ : TGlobalOrd)) ∈
      (st0.build gridFree ⟨0, 0⟩ ⟨5, 0⟩ 0 0 samsDisp).2.vertexLUT ∧
    ((3 : ℕ), (⟨21/10, 0⟩ : TGlobalOrd)) ∈
      (st0.build gridFree ⟨0, 0⟩ ⟨5, 0⟩ 0 0 samsDisp).2.vertexLUT ∧
    dist2 ⟨2, 0⟩ ⟨21/10, 0⟩ = 1/100 ∧
    (st0.build gridFree ⟨0, 0⟩ ⟨5, 0⟩ 0 0 samsDisp).1
      = [⟨0, 0⟩, ⟨2, 0⟩, ⟨4, 0⟩, ⟨5, 0⟩] :=
  ⟨by decide, by decide, by decide, by decide⟩

/-- C3 (amended): the only separation the sampling loop guarantees comes
from rounding: every vertex the loop adds carries an ordinate on the 0.1 m
grid, and any two distinct grid ordinates are at squared distance at least
1/100 (i.e. at least 0.1 m apart); no dispersion-radius filter exists. -/
theorem sampling_only_grid_separation (m : Grid) (vS vG : ℕ)
    (samples : ℕ → ℚ × ℚ) (fuel cnt : ℕ) (st : GlobalMap) :
    (∀ kv ∈ (samplingLoop m vS vG samples fuel cnt st).2.vertexLUT,
        kv ∈ st.vertexLUT ∨ onGrid kv.2) ∧
    (∀ p q : TGlobalOrd, onGrid p → onGrid q → p ≠ q → 1/100 ≤ dist2 p q) :=
  ⟨fun kv hkv => samplingLoop_new_vertices m vS vG samples fuel cnt st kv hkv,
   fun _ _ hp hq hne => onGrid_separation hp hq hne⟩

unseal Rat.mul Rat.inv Rat.add Rat.sub in
/-- C3 witness: the separation bound applied at two concrete grid ordinates. -/
theorem sampling_only_grid_separation_witness :
    (1 : ℚ)/100 ≤ dist2 ⟨0, 0⟩ ⟨1/10, 0⟩ :=
  (sampling_only_grid_separation gridFree 0 0 samsNone 0 0 st0).2 ⟨0, 0⟩ ⟨1/10, 0⟩
    ⟨⟨0, by norm_num⟩, ⟨0, by norm_num⟩⟩ ⟨⟨1, by norm_num⟩, ⟨0, by norm_num⟩⟩
    (by decide)

/-- C4: the sampling loop of `build` is bounded by MaxSamples = 1000
iterations: the result of `build` depends only on the samples at indices
below 999 (the iteration with `safetyCnt = 1000` breaks before drawing, so
at most 999 samples are ever drawn), and when the loop exhausts without a
vertex path being found the returned path is empty — a non-empty loop result
implies a vertex path from start to goal exists in the final graph. -/
theorem build_sampling_bounded (st : GlobalMap) (m : Grid) (a b : TGlobalOrd)
    (v w : ℕ) (s1 s2 : ℕ → ℚ × ℚ) (h : ∀ i < 999, s1 i = s2 i) :
    st.build m a b v w s1 = st.build m a b v w s2 ∧
    (∀ (m' : Grid) (vS vG : ℕ) (str : ℕ → ℚ × ℚ) (st' : GlobalMap),
      (samplingLoop m' vS vG str 1000 0 st').1 ≠ [] →
        shortestPath (samplingLoop m' vS vG str 1000 0 st').2.graph vS vG ≠ []) :=
  ⟨build_sample_dep h st m a b v w,
   fun m' vS vG str st' => samplingLoop_found m' vS vG str 1000 0 st'⟩

unseal Rat.mul Rat.inv Rat.add Rat.sub in
/-- C4 witness: applied to two concrete streams agreeing below index 999. -/
theorem build_sampling_bounded_witness :
    st0.build gridFree ⟨0, 0⟩ ⟨2, 0⟩ 0 0 samsNone
      = st0.build gridFree ⟨0, 0⟩ ⟨2, 0⟩ 0 0 samsTail :=
  (build_sampling_bounded st0 gridFree ⟨0, 0⟩ ⟨2, 0⟩ 0 0 samsNone samsTail
    (fun i hi => by simp [samsNone, samsTail, hi])).1

/-- C5: per goal, the planner loop invokes `build` at most 3 times in total
(simulator.cpp:118-129): the final attempt count is at most 3, the returned
path is the result of the last attempt, every attempt before the last
returned the empty path (re-invocation happens only while the path is
empty), and when all attempts fail the cycle publishes only the overlay — no
waypoint message. -/
theorem retry_at_most_three (bf : ℕ → List TGlobalOrd) (rp : Pose) :
    (retryBuild bf).1 ≤ 3 ∧
    (retryBuild bf).2 = bf ((retryBuild bf).1 - 1) ∧
    (∀ i < (retryBuild bf).1 - 1, bf i = []) ∧
    ((retryBuild bf).2 = [] → bf 0 = [] ∧ bf 1 = [] ∧ bf 2 = []) ∧
    ((retryBuild bf).2 = [] → planningCycle false bf rp = [PubMsg.overlay []]) := by
  by_cases h0 : bf 0 = []
  · by_cases h1 : bf 1 = []
    · have hr : retryBuild bf = (3, bf 2) := by
        simp [retryBuild, retryLoop, h0, h1]
      rw [hr]
      refine ⟨by omega, rfl, ?_, fun h2 => ⟨h0, h1, h2⟩, fun h2 => ?_⟩
      · intro i hi
        interval_cases i
        · exact h0
        · exact h1
      · simp [planningCycle, hr, h2]
    · have hr : retryBuild bf = (2, bf 1) := by
        simp [retryBuild, retryLoop, h0, h1]
      rw [hr]
      refine ⟨by omega, rfl, ?_, fun h2 => absurd h2 h1, fun h2 => absurd h2 h1⟩
      intro i hi
      interval_cases i
      exact h0
  · have hr : retryBuild bf = (1, bf 0) := by
      simp [retryBuild, retryLoop, h0]
    rw [hr]
    exact ⟨by omega, rfl, fun i hi => by omega, fun h2 => absurd h2 h0,
      fun h2 => absurd h2 h0⟩

/-- C5 witness: the retry bound applied at the always-empty oracle. -/
theorem retry_at_most_three_witness :
    (retryBuild (fun _ => ([] : List TGlobalOrd))).1 ≤ 3 ∧
    planningCycle false (fun _ => ([] : List TGlobalOrd)) rpZ = [PubMsg.overlay []] :=
  ⟨(retry_at_most_three (fun _ => []) rpZ).1,
   (retry_at_most_three (fun _ => []) rpZ).2.2.2.2 (by decide)⟩

/-- C6: in every planning cycle that reaches the planning phase (non-empty
grid snapshot), exactly one overlay message is published regardless of the
path, and a waypoint message is published iff the resulting path is
non-empty. -/
theorem planning_cycle_publishes (bf : ℕ → List TGlobalOrd) (rp : Pose) :
    ((planningCycle false bf rp).filter isOverlay).length = 1 ∧
    ((planningCycle false bf rp).any isPathMsg = true ↔ (retryBuild bf).2 ≠ []) := by
  cases hp : (retryBuild bf).2 with
  | nil => simp [planningCycle, hp, isOverlay, isPathMsg]
  | cons x t => simp [planningCycle, hp, isOverlay, isPathMsg]

/-- C7: when the final path is non-empty, the cycle publishes exactly the
overlay followed by one waypoint message whose poses are, in path order, one
per ordinate with `x`/`y` from the ordinate and `z` forwarded verbatim from
the robot pose consumed at the start of the cycle. -/
theorem waypoint_message_content (bf : ℕ → List TGlobalOrd) (rp : Pose)
    (h : (retryBuild bf).2 ≠ []) :
    planningCycle false bf rp
      = [PubMsg.overlay (retryBuild bf).2,
         PubMsg.path (waypointPoses (retryBuild bf).2 rp.z)] ∧
    (waypointPoses (retryBuild bf).2 rp.z).length = (retryBuild bf).2.length ∧
    (∀ i, (waypointPoses (retryBuild bf).2 rp.z).get? i
        = ((retryBuild bf).2.get? i).map fun wpt => ⟨wpt.x, wpt.y, rp.z⟩) := by
  have hlen : 0 < (retryBuild bf).2.length := List.length_pos.mpr h
  refine ⟨?_, by simp [waypointPoses], fun i => by simp [waypointPoses, List.get?_map]⟩
  simp [planningCycle, hlen]

unseal Rat.mul Rat.inv Rat.add Rat.sub in
/-- C7 witness: applied to a concrete one-waypoint oracle and pose. -/
theorem waypoint_message_content_witness :
    (retryBuild bfOne).2 ≠ [] ∧
    planningCycle false bfOne rpZ
      = [PubMsg.overlay (retryBuild bfOne).2,
         PubMsg.path (waypointPoses (retryBuild bfOne).2 rpZ.z)] :=
  ⟨by decide, (waypoint_message_content bfOne rpZ (by decide)).1⟩

/-- C8: `findOrAdd` behaviour and id discipline over any call sequence from a
well-formed state: well-formedness (no two table entries share an ordinate —
spec R1) is preserved; the final key sequence is the original keys followed by
the freshly issued ids, which form the contiguous strictly increasing range
`[nextVertexId, nextVertexId + k)` — ids are never reused; a call on an
existing ordinate returns the existing vertex and leaves the state unchanged;
a call on a new ordinate allocates `nextVertexId`, appends the pair and
increments the id counter. -/
theorem findOrAdd_id_discipline (st : GlobalMap) (ps : List TGlobalOrd)
    (h : RoadmapWF st) :
    RoadmapWF (runFindOrAdds st ps).2 ∧
    (∃ k, (runFindOrAdds st ps).2.vertexLUT.map Prod.fst
          = st.vertexLUT.map Prod.fst ++ List.range' st.nextVertexId k ∧
        (runFindOrAdds st ps).2.nextVertexId = st.nextVertexId + k) ∧
    (∀ p, st.existsAsVertex p = true →
        (st.findOrAdd p).2 = st ∧ ((st.findOrAdd p).1, p) ∈ st.vertexLUT) ∧
    (∀ p, st.existsAsVertex p = false →
        (st.findOrAdd p).1 = st.nextVertexId ∧
        (st.findOrAdd p).2.nextVertexId = st.nextVertexId + 1 ∧
        (st.findOrAdd p).2.vertexLUT = st.vertexLUT ++ [(st.nextVertexId, p)]) := by
  obtain ⟨hWF, hkeys⟩ := runFindOrAdds_keys ps h
  exact ⟨hWF, hkeys, fun p hp => findOrAdd_of_exists hp,
    fun p hp => findOrAdd_of_fresh h.2.1 hp⟩

unseal Rat.mul Rat.inv Rat.add Rat.sub in
/-- C8 witness: applied to the fresh planner state and a duplicate ordinate
sequence. -/
theorem findOrAdd_id_discipline_witness :
    RoadmapWF st0 ∧ RoadmapWF (runFindOrAdds st0 [⟨1, 1⟩, ⟨1, 1⟩]).2 :=
  ⟨by decide, (findOrAdd_id_discipline st0 [⟨1, 1⟩, ⟨1, 1⟩] (by decide)).1⟩

/-- C10: `setReference` mutates only the stored reference ordinate — graph,
vertex table, id counter and configuration are unchanged — and afterwards the
stored vertices are unchanged (`existsAsVertex` agrees) while world-to-cell
conversion of every ordinate in the next build uses the new reference. -/
theorem setReference_only_reference (st : GlobalMap) (r : TGlobalOrd) :
    (st.setReference r).graph = st.graph ∧
    (st.setReference r).vertexLUT = st.vertexLUT ∧
    (st.setReference r).nextVertexId = st.nextVertexId ∧
    (st.setReference r).mapSize = st.mapSize ∧
    (st.setReference r).mapRes = st.mapRes ∧
    (st.setReference r).robotDiameter = st.robotDiameter ∧
    (st.setReference r).reference = ⟨r.x, r.y⟩ ∧
    (∀ p, (st.setReference r).existsAsVertex p = st.existsAsVertex p) ∧
    (∀ p, (st.setReference r).toPoint p
        = worldToCell ⟨r.x, r.y⟩ st.mapRes st.mapSize p) :=
  ⟨rfl, rfl, rfl, rfl, rfl, rfl, rfl, fun _ => rfl, fun _ => rfl⟩

end PrmSim
